import Mathlib

/-!
# SonicGuessr — verification of the track-curation pipeline

A shallow embedding of the curation pipeline of the SonicGuessr repository
(Express/SQLite backend) together with proofs about it.  The embedded
functions are translated from the JavaScript sources:

* `scripts/enrich_songs_with_spotify.js` — text normalisation and the
  candidate matcher (`normalizeText`, `findBestSpotifyMatch`);
* `services/music-source-service.js` (current revision, the one that
  defines the six-strategy YouTube search) — the video resolver
  (`searchYouTubeVideo`) and the candidate-accumulation stages of
  `getTracksForDailyChallenge`;
* `jobs/daily-song-curator.js` — two revisions of `curateDailySongs` are
  present in the repository: the stale one checked in at
  `jobs/daily-song-curator.js` (writes a `preview_url` column that the
  current `daily_challenges` schema no longer has, and only logs insert
  errors), modelled in namespace `Legacy`, and the revised one (catalog
  reuse from `curated_songs`, 30-day cool-down, explicit rollback on
  insert failure) whose schema matches the current
  `services/database-service.js`, modelled in namespace `Revised`;
* `services/database-service.js` — the `daily_challenges` and
  `curated_songs` schemas (UNIQUE constraints) inform the state model.

JavaScript strings are modelled as Lean `String`s; all the string data the
pipeline handles is ASCII, for which `Char.toLower`/`Char.toUpper` agree
with JavaScript's `toLowerCase`/`toUpperCase`, and the `\s` character
class is the ASCII whitespace set modelled by `jsWs`.
-/

namespace SonicGuessr

/-! ## JS string primitives -/

/-- `leadsWith needle hay` is true when `needle` is an initial segment of
`hay` (character-wise equality).  Used to model JS `String.startsWith` and
as the building block for substring search. -/
def leadsWith : List Char → List Char → Bool
  | [], _ => true
  | _ :: _, [] => false
  | a :: as, b :: bs => a == b && leadsWith as bs

/-- `occursIn needle hay` is true when `needle` occurs contiguously inside
`hay`; models JS `String.includes` (on the underlying character lists). -/
def occursIn (needle : List Char) : List Char → Bool
  | [] => needle.isEmpty
  | b :: bs => leadsWith needle (b :: bs) || occursIn needle bs

/-- JS `hay.includes(needle)`. -/
def strIncl (hay needle : String) : Bool := occursIn needle.data hay.data

/-- JS `s.startsWith(p)`. -/
def strLeads (p s : String) : Bool := leadsWith p.data s.data

/-- JS `s.endsWith(suf)`. -/
def strEnds (s suf : String) : Bool := leadsWith suf.data.reverse s.data.reverse

/-- JS `s.toLowerCase()` restricted to ASCII (the only data the pipeline
lowercases). -/
def lowerStr (s : String) : String := ⟨s.data.map Char.toLower⟩

/-- ASCII uppercase, used to model SQLite's case-insensitive `LIKE`. -/
def upperStr (s : String) : String := ⟨s.data.map Char.toUpper⟩

/-- JS `s.split(' ')[0]`: the longest space-free initial segment. -/
def firstWord (s : String) : String := ⟨s.data.takeWhile (fun c => !(c == ' '))⟩

/-- The ASCII part of the JS regex class `\s`. -/
def jsWs (c : Char) : Bool :=
  c == ' ' || c == '\t' || c == '\n' || c == '\r' || c == '\x0b' || c == '\x0c'

/-- A character kept by `normalizeText`'s `replace(/[^a-z0-9\s]/g, '')`
(applied after lowercasing). -/
def keepChar (c : Char) : Bool :=
  (decide ('a' ≤ c) && decide (c ≤ 'z')) || (decide ('0' ≤ c) && decide (c ≤ '9')) || jsWs c

/-- Collapse runs of spaces to a single space (the effect of
`replace(/\s+/g, ' ')` once every whitespace character has been mapped to
a plain space). -/
def squeezeSpaces : List Char → List Char
  | [] => []
  | [c] => [c]
  | a :: b :: rest =>
    if a == ' ' && b == ' ' then squeezeSpaces (b :: rest)
    else a :: squeezeSpaces (b :: rest)

/-- Strip leading and trailing spaces (JS `trim` on the already-squeezed
string, whose only whitespace is the plain space). -/
def trimSpaces (l : List Char) : List Char :=
  ((l.dropWhile (fun c => c == ' ')).reverse.dropWhile (fun c => c == ' ')).reverse

/-- `normalizeText` from `scripts/enrich_songs_with_spotify.js`:
lowercase, drop every character that is not `[a-z0-9\s]`, collapse
whitespace runs to one space, trim. -/
def normalizeText (s : String) : String :=
  ⟨trimSpaces (squeezeSpaces
    (((s.data.map Char.toLower).filter keepChar).map (fun c => if jsWs c then ' ' else c)))⟩

/-! ## Candidate Matcher (`findBestSpotifyMatch`) -/

/-- A local song (the track idea being enriched): `title`/`artist` of the
`localSong` argument. -/
structure SongRef where
  title : String
  artist : String
deriving DecidableEq, Repr

/-- A Spotify search result as mapped by `searchTracksOnSpotify`:
`{id, title, artist}`. -/
structure SpotCand where
  id : String
  title : String
  artist : String
deriving DecidableEq, Repr

/-- The disqualifying artist test: the normalized candidate artist
contains, or is contained in, the normalized local artist.  A candidate
failing it is skipped (`continue`) by `findBestSpotifyMatch`. -/
def artistGate (l : SongRef) (c : SpotCand) : Bool :=
  strIncl (normalizeText c.artist) (normalizeText l.artist) ||
  strIncl (normalizeText l.artist) (normalizeText c.artist)

/-- The score `findBestSpotifyMatch` assigns to a candidate that passed
`artistGate`: 5 for the artist-containment, +5 for exact normalized artist
equality, then 10 for exact normalized title equality or else 3 for
one-way title containment, and +2 when the raw local title occurs
verbatim in the raw candidate title. -/
def candScore (l : SongRef) (c : SpotCand) : Nat :=
  (5 + (if normalizeText c.artist == normalizeText l.artist then 5 else 0)) +
  (if normalizeText c.title == normalizeText l.title then 10
   else if strIncl (normalizeText c.title) (normalizeText l.title) ||
            strIncl (normalizeText l.title) (normalizeText c.title) then 3
   else 0) +
  (if strIncl c.title l.title then 2 else 0)

/-- The candidate loop of `findBestSpotifyMatch`: carries
`bestMatch : Option SpotCand` and `highestScore : Int` (initially `-1`);
skips candidates with a missing/empty title or artist, skips candidates
failing `artistGate`, and replaces the best match only on a strictly
greater score. -/
def findBestLoop (l : SongRef) : List SpotCand → Option SpotCand → Int → Option SpotCand × Int
  | [], b, h => (b, h)
  | c :: rest, b, h =>
    if c.title == "" || c.artist == "" then findBestLoop l rest b h
    else if artistGate l c then
      if (candScore l c : Int) > h then findBestLoop l rest (some c) (candScore l c)
      else findBestLoop l rest b h
    else findBestLoop l rest b h

/-- `findBestSpotifyMatch` from `scripts/enrich_songs_with_spotify.js`:
run the loop, then return the best match only if its score reached the
confidence floor 8. -/
def findBestSpotifyMatch (l : SongRef) (cands : List SpotCand) : Option SpotCand :=
  match findBestLoop l cands none (-1) with
  | (some bm, h) => if 8 ≤ h then some bm else none
  | (none, _) => none

/-- The candidates that survive the disqualifying artist test. -/
def eligCands (l : SongRef) (cands : List SpotCand) : List SpotCand :=
  cands.filter (fun c => artistGate l c)

/-- Running maximum of candidate scores over a list, started from `h`
(the loop's `highestScore` accumulator). -/
def runMax (l : SongRef) (h : Int) (xs : List SpotCand) : Int :=
  xs.foldl (fun m c => max m (candScore l c : Int)) h

/-- Highest score among the eligible candidates, starting from the
loop's initial `-1`. -/
def topScore (l : SongRef) (cands : List SpotCand) : Int :=
  runMax l (-1) (eligCands l cands)

/-- Follows the spec's words (Candidate Matcher, §4.2 and C3): score each
candidate, reject artist mismatches outright, and return the
highest-scoring candidate exactly when that score is at least 8 (the
first such candidate in list order). -/
def specBestMatch (l : SongRef) (cands : List SpotCand) : Option SpotCand :=
  if 8 ≤ topScore l cands then
    (eligCands l cands).find? (fun c => (candScore l c : Int) == topScore l cands)
  else none

/-- The worked example of the spec: idea "Yesterday" by "The Beatles". -/
def yIdea : SongRef := ⟨"Yesterday", "The Beatles"⟩

/-- Exact candidate for the worked example. -/
def yCand1 : SpotCand := ⟨"sp1", "Yesterday", "The Beatles"⟩

/-- Artist-mismatch candidate for the worked example. -/
def yCand2 : SpotCand := ⟨"sp2", "Yesterday (Live)", "Beatles Tribute"⟩

/-- Candidate list for the worked example. -/
def yCands : List SpotCand := [yCand1, yCand2]

/-- Tie-break example idea: two eligible candidates with equal scores. -/
def tIdea : SongRef := ⟨"Blue", "Adele"⟩

/-- First tied candidate (exact artist, unrelated title: score 10). -/
def tCand1 : SpotCand := ⟨"t1", "Red", "Adele"⟩

/-- Second tied candidate (exact artist, unrelated title: score 10). -/
def tCand2 : SpotCand := ⟨"t2", "Green", "Adele"⟩

/-- Candidate list for the tie-break example. -/
def tCands : List SpotCand := [tCand1, tCand2]

/-! ## Video Resolver (`searchYouTubeVideo`, music-source-service.js) -/

/-- The six query strategies of `searchYouTubeVideo`, in order. -/
inductive StratType
  | officialAudio
  | lyricVideo
  | lyrics
  | audio
  | topic
  | general
deriving DecidableEq, Repr

/-- The ordered strategy list with its `strictChannel` flags, exactly as
in the `searchStrategies` array. -/
def searchStrategies : List (StratType × Bool) :=
  [(.officialAudio, true), (.lyricVideo, true), (.lyrics, false),
   (.audio, false), (.topic, true), (.general, false)]

/-- A YouTube search result item: `id.videoId`, `snippet.title`,
`snippet.channelTitle`. -/
structure YTItem where
  videoId : String
  title : String
  channelTitle : String
deriving DecidableEq, Repr

/-- The resolver's external world: the search results returned for the
strategy at each position of `searchStrategies`, and the exact duration
(ms) the videos endpoint reports for a video id (`none` models a failed
or empty `contentDetails` lookup, after which the code proceeds without
the duration check). -/
structure YTEnv where
  results : Nat → List YTItem
  fetchDur : String → Option Nat

/-- The fixed undesired-keyword list of the resolver's first filter. -/
def undesiredKeywords : List String :=
  ["live", "cover", "remix", "interview", "teaser",
   "reaction", "parody", "tutorial", "instrumental", "karaoke",
   "official video", "music video"]

/-- Step 1 of the per-item checks: reject when some undesired keyword
occurs in the lowercased title — except that a title containing
"lyric video" is never rejected by this filter (the code conjoins
`!videoTitleLower.includes("lyric video")` to every keyword test). -/
def keywordReject (videoTitleLower : String) : Bool :=
  undesiredKeywords.any
    (fun kw => strIncl videoTitleLower kw && !(strIncl videoTitleLower "lyric video"))

/-- `isLikelyOfficialChannel` from music-source-service.js: channel
contains the lowercased artist, or its first space-separated token, or
"vevo" or "official", or ends with " - topic". -/
def isLikelyOfficialChannel (channelTitle artistName : String) : Bool :=
  if channelTitle == "" || artistName == "" then false
  else
    strIncl (lowerStr channelTitle) (lowerStr artistName) ||
    strIncl (lowerStr channelTitle) (firstWord (lowerStr artistName)) ||
    strIncl (lowerStr channelTitle) "vevo" ||
    strEnds (lowerStr channelTitle) " - topic" ||
    strIncl (lowerStr channelTitle) "official"

/-- Step 2, the strategy-type switch: returns the pair
`(isMatch, isHighConfidence)`. -/
def typeMatch (t : StratType) (videoTitleLower : String) (channelTitle artist : String) :
    Bool × Bool :=
  match t with
  | .officialAudio =>
    if strIncl videoTitleLower "official audio" then
      (true, isLikelyOfficialChannel channelTitle artist)
    else (false, false)
  | .lyricVideo =>
    if strIncl videoTitleLower "lyric video" then
      (true, isLikelyOfficialChannel channelTitle artist)
    else (false, false)
  | .lyrics => (strIncl videoTitleLower "lyrics", false)
  | .audio =>
    (strIncl videoTitleLower "audio" && !(strIncl videoTitleLower "official audio"), false)
  | .topic =>
    if strIncl (lowerStr channelTitle) " - topic" &&
        strIncl (lowerStr channelTitle) (firstWord (lowerStr artist)) then
      (true, true)
    else (false, false)
  | .general => (true, false)

/-- Step 4, the duration tolerance.  The JS computes
`maxDiff = Math.min(30000, spotifyDurationMs * 0.20)` in binary floating
point; for every integer target the double product rounds to exactly
`target / 5` (the relative error of the double nearest 0.20 is below a
quarter ulp), so exact rational arithmetic models it faithfully.  A
target of `0` models the JS falsy case (no duration known): the check is
skipped, as it is when the lookup yields no duration. -/
def durationGate (target : Nat) (fetched : Option Nat) : Bool :=
  if target = 0 then true
  else
    match fetched with
    | none => true
    | some yt =>
      if |(yt : ℚ) - (target : ℚ)| > min 30000 ((target : ℚ) * (20 / 100)) then false
      else true

/-- The complete per-item acceptance check of `searchYouTubeVideo`:
keyword filter, strategy-type match, channel strictness, duration
tolerance, in the code's order. -/
def checkItem (t : StratType) (strict : Bool) (artist : String) (target : Nat)
    (env : YTEnv) (it : YTItem) : Bool :=
  if keywordReject (lowerStr it.title) then false
  else
    let m := typeMatch t (lowerStr it.title) it.channelTitle artist
    if !m.1 then false
    else if strict && !m.2 && !(isLikelyOfficialChannel it.channelTitle artist) then false
    else durationGate target (env.fetchDur it.videoId)

/-- First item of a strategy's result list passing all checks. -/
def firstHit (t : StratType) (strict : Bool) (artist : String) (target : Nat)
    (env : YTEnv) : List YTItem → Option String
  | [] => none
  | it :: rest =>
    if checkItem t strict artist target env it then some it.videoId
    else firstHit t strict artist target env rest

/-- Iterate the strategies in order (with their position, which indexes
the environment's search results), returning the first hit. -/
def searchLoop (artist : String) (target : Nat) (env : YTEnv) :
    Nat → List (StratType × Bool) → Option String
  | _, [] => none
  | i, (t, s) :: rest =>
    match firstHit t s artist target env (env.results i) with
    | some v => some v
    | none => searchLoop artist target env (i + 1) rest

/-- `searchYouTubeVideo` from music-source-service.js (current revision):
the title argument only feeds the query strings, which live in the
environment, so filtering depends on the artist, the target duration and
the per-strategy results. -/
def searchYouTubeVideo (artist : String) (spotifyDurationMs : Nat) (env : YTEnv) :
    Option String :=
  searchLoop artist spotifyDurationMs env 0 searchStrategies

/-- An item whose title carries both the undesired keyword "live" and the
exempting phrase "lyric video", on an official-looking channel. -/
def liveLyricItem : YTItem := ⟨"vidX", "Artist - Song (Live) Lyric Video", "ArtistVEVO"⟩

/-- Environment returning `liveLyricItem` for the lyric-video strategy
(position 1) and nothing elsewhere. -/
def envLive : YTEnv := ⟨fun i => if i = 1 then [liveLyricItem] else [], fun _ => none⟩

/-- An item whose title contains "Official Live Performance" (and no
"lyric video"). -/
def olpItem : YTItem := ⟨"vidY", "Band - Tune Official Live Performance", "BandVEVO"⟩

/-- Environment returning `olpItem` for every strategy. -/
def envOLP : YTEnv := ⟨fun _ => [olpItem], fun _ => none⟩

/-! ## Persistence model (database-service.js schemas, SQLite semantics) -/

/-- A committed `daily_challenges` row.  `media` holds the ninth insert
column: `preview_url` in the legacy curator revision, `youtube_video_id`
in the revised one (the current schema's column). -/
structure ChallengeRow where
  date : String
  ord : Nat
  source : String
  trackId : String
  title : String
  artist : String
  albumArt : String
  durationMs : Nat
  media : String
deriving DecidableEq, Repr

/-- A `curated_songs` row; `none` models SQL NULL, and `isActive` models
the BOOLEAN column (`some true` = 1, `some false` = 0). -/
structure CatalogRow where
  rid : Nat
  title : Option String
  artist : Option String
  albumArt : Option String
  durationMs : Option Nat
  spotifyId : Option String
  ytId : Option String
  lastUsed : Option String
  isActive : Option Bool
deriving DecidableEq, Repr

/-- The slice of the SQLite state the curator touches. -/
structure DbState where
  challenges : List ChallengeRow
  catalog : List CatalogRow
deriving DecidableEq, Repr

/-- A write the curator issues inside its transaction. -/
inductive DbOp
  | insertChallenge (r : ChallengeRow)
  | setLastUsed (rid : Nat) (date : String)
deriving DecidableEq, Repr

/-- Effect of a single successful statement. -/
def applyOp (st : DbState) : DbOp → DbState
  | .insertChallenge r => { st with challenges := st.challenges ++ [r] }
  | .setLastUsed rid d =>
    { st with catalog :=
        st.catalog.map (fun c => if c.rid == rid then { c with lastUsed := some d } else c) }

/-- SQLite transaction semantics: the successfully issued statements take
effect only when the transaction reaches COMMIT (`tx.2 = true`); a rolled
back transaction leaves the state unchanged. -/
def applyTx (st : DbState) (tx : List DbOp × Bool) : DbState :=
  if tx.2 then tx.1.foldl applyOp st else st

/-- SQLite `s LIKE 'STEM_%'` with the default case-insensitive ASCII
collation: the uppercased string starts with STEM and has at least one
further character (`_` is the single-character wildcard). -/
def likeMarker (stem s : String) : Bool :=
  strLeads stem (upperStr s) && decide (stem.length < s.length)

/-- Lexicographic (bytewise) order on character lists, as SQLite's
default TEXT comparison behaves on ASCII data. -/
def charListLt : List Char → List Char → Bool
  | [], [] => false
  | [], _ :: _ => true
  | _ :: _, [] => false
  | a :: as, b :: bs => decide (a < b) || (a == b && charListLt as bs)

/-- SQLite `a < b` on TEXT dates: bytewise comparison, which on ISO
`YYYY-MM-DD` strings is chronological order. -/
def dateLt (a b : String) : Bool := charListLt a.data b.data

/-- The WHERE clause of the revised curator's SELECT from curated_songs;
`cutoff` is the date string the JS computes as 30 days before today. -/
def eligibleRow (cutoff : String) (r : CatalogRow) : Bool :=
  (match r.spotifyId with
   | some s => !(likeMarker "SPOTIFY" s) && !(likeMarker "ERROR" s)
   | none => false) &&
  (match r.ytId with
   | some v => !(likeMarker "YOUTUBE" v) && !(likeMarker "ERROR" v)
   | none => false) &&
  r.title.isSome && r.artist.isSome && r.albumArt.isSome && r.durationMs.isSome &&
  (r.isActive == some true || r.isActive == none) &&
  (match r.lastUsed with
   | none => true
   | some u => dateLt u cutoff)

namespace Revised

/-- The `daily_challenges` row the revised curator inserts for the track
at position `i`: song_order `i+1`, source_name `'curated_spotify'`. -/
def mkRow (today : String) (i : Nat) (t : CatalogRow) : ChallengeRow :=
  { date := today, ord := i + 1, source := "curated_spotify",
    trackId := t.spotifyId.getD "", title := t.title.getD "",
    artist := t.artist.getD "", albumArt := t.albumArt.getD "",
    durationMs := t.durationMs.getD 0, media := t.ytId.getD "" }

/-- The insert/update loop of the revised `curateDailySongs`: for each
track an INSERT into daily_challenges — whose failure aborts the loop
and forces a rollback — followed by an UPDATE of
`curated_songs.last_used_for_challenge` whose failure is only logged.
Returns the successfully issued statements and whether COMMIT was
reached. -/
def emitOps (today : String) (insFail updFail : Nat → Bool) :
    Nat → List CatalogRow → List DbOp × Bool
  | _, [] => ([], true)
  | i, t :: rest =>
    if insFail i then ([], false)
    else
      let tail := emitOps today insFail updFail (i + 1) rest
      (DbOp.insertChallenge (mkRow today i t) ::
        (if updFail i then tail.1 else DbOp.setLastUsed t.rid today :: tail.1), tail.2)

/-- The selected tracks: the WHERE filter over the catalog in its
`ORDER BY RANDOM()` order (`perm` is that permutation), `LIMIT limit`. -/
def selectTracks (cutoff : String) (perm : List CatalogRow) (limit : Nat) : List CatalogRow :=
  (perm.filter (eligibleRow cutoff)).take limit

/-- Revised `curateDailySongs` (the revision whose insert matches the
current daily_challenges schema): skip when rows for today exist
(resolving with no value), resolve with no value when no catalog row is
eligible, else run the transaction — an insert failure rolls it back and
rejects the promise.  The outcome is `Except.ok v` for `resolve(v)`
(always `none`: the code never resolves with a value) and
`Except.error ()` for a rejection. -/
def curateDailySongs (st : DbState) (today cutoff : String) (perm : List CatalogRow)
    (limit : Nat) (insFail updFail : Nat → Bool) : DbState × Except Unit (Option Nat) :=
  if 0 < (st.challenges.filter (fun r => r.date == today)).length then (st, .ok none)
  else
    let tracks := selectTracks cutoff perm limit
    if tracks.isEmpty then (st, .ok none)
    else
      let tx := emitOps today insFail updFail 0 tracks
      (applyTx st tx, if tx.2 then .ok none else .error ())

/-- The revised curator's short-count warning condition
(`tracksToChallenge.length < DAILY_SONG_COUNT`). -/
def warnsShort (cutoff : String) (perm : List CatalogRow) (limit : Nat) : Bool :=
  decide ((selectTracks cutoff perm limit).length < limit)

/-- The rows a committed run appends, in order, starting at position `i`. -/
def mkRows (today : String) : Nat → List CatalogRow → List ChallengeRow
  | _, [] => []
  | i, t :: rest => mkRow today i t :: mkRows today (i + 1) rest

/-- Mark a catalog row as used today when its id is among `rids`. -/
def markUsed (today : String) (rids : List Nat) (c : CatalogRow) : CatalogRow :=
  if c.rid ∈ rids then { c with lastUsed := some today } else c

end Revised

namespace Legacy

/-- A track as the legacy revision receives it from
`getTracksFromPlaylist`: `{id, title, artist, preview_url,
album_art_url, duration_ms}`. -/
structure Track where
  id : String
  title : String
  artist : String
  previewUrl : String
  albumArt : String
  durationMs : Nat
deriving DecidableEq, Repr

/-- The row the legacy revision inserts (source_name `'spotify'`,
`preview_url` column). -/
def mkRow (today : String) (i : Nat) (t : Track) : ChallengeRow :=
  { date := today, ord := i + 1, source := "spotify", trackId := t.id,
    title := t.title, artist := t.artist, albumArt := t.albumArt,
    durationMs := t.durationMs, media := t.previewUrl }

/-- The legacy insert loop: a failed INSERT is only logged
(`if (runErr) console.error(...)`), the loop continues, and the
transaction still commits — so exactly the successful inserts take
effect. -/
def persistOps (today : String) (insFail : Nat → Bool) : Nat → List Track → List DbOp
  | _, [] => []
  | i, t :: rest =>
    (if insFail i then [] else [DbOp.insertChallenge (mkRow today i t)]) ++
      persistOps today insFail (i + 1) rest

/-- Legacy `curateDailySongs` (the revision checked in at
jobs/daily-song-curator.js): skip when rows for today exist, reject when
no track was selected, otherwise insert inside a transaction committed
regardless of individual insert failures. -/
def curateDailySongs (st : DbState) (today : String) (selected : List Track)
    (insFail : Nat → Bool) : DbState × Except Unit (Option Nat) :=
  if 0 < (st.challenges.filter (fun r => r.date == today)).length then (st, .ok none)
  else if selected.isEmpty then (st, .error ())
  else (applyTx st (persistOps today insFail 0 selected, true), .ok none)

end Legacy

/-! ## Orchestrator: candidate accumulation and video resolution
(getTracksForDailyChallenge, music-source-service.js) -/

/-- A Spotify track with full details as mapped by
`fetchFullTrackDetails`: `{id, title, artist, album_art_url,
duration_ms}`; `albumArt = ""` and `durationMs = 0` model the JS falsy
null/missing values. -/
structure SpotTrack where
  id : String
  title : String
  artist : String
  albumArt : String
  durationMs : Nat
deriving DecidableEq, Repr

/-- A track idea from the Genre Source (MusicBrainz) strategy. -/
structure TrackIdea where
  title : String
  artist : String
  album : Option String
deriving DecidableEq, Repr

/-- A track assembled for the daily challenge. -/
structure CTrack where
  sourceName : String
  trackId : String
  title : String
  artist : String
  albumArt : String
  durationMs : Nat
  videoId : String
deriving DecidableEq, Repr

/-- The record pushed onto `tracksForChallenge` for a candidate whose
video resolved. -/
def mkCTrack (c : SpotTrack) (vid : String) : CTrack :=
  { sourceName := "spotify_via_musicbrainz", trackId := c.id, title := c.title,
    artist := c.artist, albumArt := c.albumArt, durationMs := c.durationMs,
    videoId := vid }

/-- The MusicBrainz enrichment stage: for each idea (while below the
over-fetch limit), look up one Spotify search result (`search`), skip
ids already accumulated, fetch full details (`detail`), and keep the
first detail record when its duration and album art are truthy. -/
def mbStage (search : TrackIdea → Option SpotTrack) (detail : String → List SpotTrack)
    (limit : Nat) (ideas : List TrackIdea) (acc0 : List SpotTrack) : List SpotTrack :=
  ideas.foldl (fun acc idea =>
    if limit ≤ acc.length then acc
    else
      match search idea with
      | none => acc
      | some f =>
        if acc.any (fun fc => fc.id == f.id) then acc
        else
          match detail f.id with
          | [] => acc
          | d :: _ => if d.durationMs != 0 && d.albumArt != "" then acc ++ [d] else acc) acc0

/-- The fallback-strategy merge (Top Playlists / New Releases): add each
incoming track whose id is unseen and whose duration and album art are
truthy. -/
def mergeStage (incoming : List SpotTrack) (acc0 : List SpotTrack) : List SpotTrack :=
  incoming.foldl (fun acc t =>
    if !(acc.any (fun fc => fc.id == t.id)) && t.durationMs != 0 && t.albumArt != "" then
      acc ++ [t]
    else acc) acc0

/-- Candidate accumulation of `getTracksForDailyChallenge`: the
MusicBrainz stage, then the Top-Playlists and New-Releases merges, each
fallback attempted only while the count is below the over-fetch limit. -/
def accumulateCandidates (search : TrackIdea → Option SpotTrack)
    (detail : String → List SpotTrack) (limit : Nat) (ideas : List TrackIdea)
    (topC newC : List SpotTrack) : List SpotTrack :=
  let a1 := mbStage search detail limit ideas []
  let a2 := if a1.length < limit then mergeStage topC a1 else a1
  if a2.length < limit then mergeStage newC a2 else a2

/-- The video-resolution loop: walk the (shuffled) candidates, resolving
each via the Video Resolver (`resolve`), pushing resolved tracks until
`desired` are collected. -/
def pickTracks (resolve : SpotTrack → Option String) (desired : Nat) :
    List SpotTrack → List CTrack → List CTrack
  | [], acc => acc
  | c :: rest, acc =>
    if desired ≤ acc.length then acc
    else
      match resolve c with
      | some vid => pickTracks resolve desired rest (acc ++ [mkCTrack c vid])
      | none => pickTracks resolve desired rest acc

/-- The tail of `getTracksForDailyChallenge`: resolve videos over the
accumulated candidates, throw when nothing resolved, else return at most
`desired` tracks. -/
def getTracksForDailyChallenge (cands : List SpotTrack)
    (resolve : SpotTrack → Option String) (desired : Nat) : Except Unit (List CTrack) :=
  let picked := pickTracks resolve desired cands []
  if picked.length = 0 then .error () else .ok (picked.take desired)

/-! ## Concrete data for counterexamples and witnesses -/

/-- No failing statements. -/
def noFail : Nat → Bool := fun _ => false

/-- Empty database. -/
def stEmpty : DbState := ⟨[], []⟩

/-- A fully eligible catalog row. -/
def goodRow : CatalogRow :=
  { rid := 7, title := some "Tune", artist := some "Band",
    albumArt := some "art-x", durationMs := some 200000,
    spotifyId := some "sg123", ytId := some "yt123",
    lastUsed := none, isActive := some true }

/-- A second eligible catalog row (last used long before the cutoff,
is_active NULL). -/
def goodRow2 : CatalogRow :=
  { rid := 8, title := some "Song", artist := some "Group",
    albumArt := some "art-y", durationMs := some 180000,
    spotifyId := some "sg456", ytId := some "yt456",
    lastUsed := some "2020-01-01", isActive := none }

/-- An ineligible catalog row (error-marker Spotify id, no video,
inactive). -/
def badRow : CatalogRow :=
  { rid := 9, title := some "X", artist := none, albumArt := none,
    durationMs := none, spotifyId := some "SPOTIFY_NO_CONFIDENT_MATCH_9",
    ytId := none, lastUsed := none, isActive := some false }

/-- `goodRow` after a run on 2026-01-01 marked it used. -/
def goodRowUsed : CatalogRow := { goodRow with lastUsed := some "2026-01-01" }

/-- Database with a catalog containing exactly `goodRow`. -/
def stGood : DbState := ⟨[], [goodRow]⟩

/-- Database that already holds three challenge rows for 2026-01-01. -/
def stExisting : DbState :=
  ⟨[⟨"2026-01-01", 1, "curated_spotify", "sgA", "TA", "AA", "aA", 100, "vA"⟩,
    ⟨"2026-01-01", 2, "curated_spotify", "sgB", "TB", "AB", "aB", 200, "vB"⟩,
    ⟨"2026-01-01", 3, "curated_spotify", "sgC", "TC", "AC", "aC", 300, "vC"⟩], []⟩

/-- Legacy-revision sample tracks. -/
def lt0 : Legacy.Track := ⟨"a1", "T1", "A1", "p1", "art1", 100⟩

/-- Second legacy sample track (its insert will be made to fail). -/
def lt1 : Legacy.Track := ⟨"a2", "T2", "A2", "p2", "art2", 200⟩

/-- Third legacy sample track. -/
def lt2 : Legacy.Track := ⟨"a3", "T3", "A3", "p3", "art3", 300⟩

/-- A legacy run in which the second of three inserts fails. -/
def legacyFailRun : DbState × Except Unit (Option Nat) :=
  Legacy.curateDailySongs stEmpty "2026-01-01" [lt0, lt1, lt2] (fun i => decide (i = 1))

/-- A revised run over a catalog with no eligible row. -/
def zeroEligRun : DbState × Except Unit (Option Nat) :=
  Revised.curateDailySongs stEmpty "2026-01-01" "2025-12-02" [badRow] 10 noFail noFail

/-- A concrete Spotify candidate. -/
def sp1 : SpotTrack := ⟨"id1", "T1", "A1", "art1", 1000⟩

/-- A second concrete Spotify candidate with a different id. -/
def sp2 : SpotTrack := ⟨"id2", "T2", "A2", "art2", 2000⟩

/-! ## Scheduler concurrency model (startDailyJob) -/

/-- Observable state of two concurrent curation triggers sharing one
database.  `startDailyJob` installs a cron trigger and a startup trigger
with no run-state flag of any kind, so each trigger independently runs
`curateDailySongs`: first the `COUNT(*)` check (one step), then — when
the observed count was zero — the insert transaction (one atomic step,
as SQLite serialises the statements of one connection).  `rows` holds
the committed `(challenge_date, song_order)` pairs; per trigger, `obs`
records the observed count, `att` whether it issued inserts, `com`
whether its transaction committed, and `pc` its program counter. -/
structure SchedSt where
  rows : List (String × Nat)
  obs1 : Option Nat
  obs2 : Option Nat
  pc1 : Nat
  pc2 : Nat
  att1 : Bool
  att2 : Bool
  com1 : Bool
  com2 : Bool
deriving DecidableEq, Repr

/-- Initial state: empty table, neither trigger started. -/
def initSched : SchedSt := ⟨[], none, none, 0, 0, false, false, false, false⟩

/-- The `k` rows a run inserts for a date (song_order 1..k). -/
def challengeRows (date : String) (k : Nat) : List (String × Nat) :=
  (List.range k).map (fun i => (date, i + 1))

/-- The insert transaction: rolled back (`none`) when a row violates the
`UNIQUE(challenge_date, song_order)` constraint, else committed. -/
def txInsert (date : String) (k : Nat) (rows : List (String × Nat)) :
    Option (List (String × Nat)) :=
  if (challengeRows date k).any (fun r => decide (r ∈ rows)) then none
  else some (rows ++ challengeRows date k)

/-- One step of the trigger selected by `first`. -/
def trigStep (date : String) (k : Nat) (first : Bool) (st : SchedSt) : SchedSt :=
  if first then
    match st.pc1 with
    | 0 => { st with obs1 := some (st.rows.filter (fun r => r.1 == date)).length, pc1 := 1 }
    | 1 =>
      if st.obs1 == some 0 then
        match txInsert date k st.rows with
        | some rows2 => { st with rows := rows2, att1 := true, com1 := true, pc1 := 2 }
        | none => { st with att1 := true, pc1 := 2 }
      else { st with pc1 := 2 }
    | _ => st
  else
    match st.pc2 with
    | 0 => { st with obs2 := some (st.rows.filter (fun r => r.1 == date)).length, pc2 := 1 }
    | 1 =>
      if st.obs2 == some 0 then
        match txInsert date k st.rows with
        | some rows2 => { st with rows := rows2, att2 := true, com2 := true, pc2 := 2 }
        | none => { st with att2 := true, pc2 := 2 }
      else { st with pc2 := 2 }
    | _ => st

/-- Run a schedule (an interleaving of the two triggers) from the
initial state. -/
def runSched (date : String) (k : Nat) (sched : List Bool) : SchedSt :=
  sched.foldl (fun st b => trigStep date k b st) initSched

/-- The inductive invariant of the two-trigger system. -/
def SchedInv (date : String) (st : SchedSt) : Prop :=
  (st.com1 = true → (date, 1) ∈ st.rows) ∧
  (st.com2 = true → (date, 1) ∈ st.rows) ∧
  ¬(st.com1 = true ∧ st.com2 = true) ∧
  (st.att1 = true → st.obs1 = some 0) ∧
  (st.att2 = true → st.obs2 = some 0) ∧
  (st.pc1 = 0 → st.att1 = false ∧ st.com1 = false) ∧
  (st.pc2 = 0 → st.att2 = false ∧ st.com2 = false)

/-- The interleaving in which both triggers check the count before
either writes. -/
def raceSched : List Bool := [true, false, true, false]

/-! ## Theorems: string primitives -/

theorem leadsWith_iff (n h : List Char) : leadsWith n h = true ↔ n <+: h := by
  induction n generalizing h with
  | nil => simp [leadsWith]
  | cons a as ih =>
    cases h with
    | nil => simp [leadsWith]
    | cons b bs => simp [leadsWith, List.cons_prefix_cons, ih]

theorem occursIn_iff (n h : List Char) : occursIn n h = true ↔ n <:+: h := by
  induction h with
  | nil => simp [occursIn, List.isEmpty_iff]
  | cons b bs ih => simp [occursIn, leadsWith_iff, ih, List.infix_cons_iff]

/-- If `t` occurs in `s` and `u` occurs in `t` then `u` occurs in `s`. -/
theorem strIncl_trans {s t u : String} (h1 : strIncl s t = true) (h2 : strIncl t u = true) :
    strIncl s u = true := by
  rw [strIncl, occursIn_iff] at h1 h2 ⊢
  exact h2.trans h1

/-! ## Theorems: Candidate Matcher -/

theorem runMax_cons (l : SongRef) (h : Int) (c : SpotCand) (xs : List SpotCand) :
    runMax l h (c :: xs) = runMax l (max h (candScore l c : Int)) xs := rfl

theorem le_runMax (l : SongRef) (h : Int) (xs : List SpotCand) : h ≤ runMax l h xs := by
  induction xs generalizing h with
  | nil => simp [runMax]
  | cons c xs ih => rw [runMax_cons]; exact le_trans (le_max_left _ _) (ih _)

/-- Characterisation of the candidate loop: starting from an accumulator
`(b, h)`, it returns the running maximum `M` of the eligible scores and,
when some eligible candidate beat `h`, the first eligible candidate whose
score equals `M`. -/
theorem findBestLoop_eq (l : SongRef) (xs : List SpotCand)
    (hne : ∀ c ∈ xs, ¬(c.title = "" ∨ c.artist = "")) (b : Option SpotCand) (h : Int) :
    findBestLoop l xs b h =
      ((if runMax l h (eligCands l xs) = h then b
        else (eligCands l xs).find?
          (fun c => (candScore l c : Int) == runMax l h (eligCands l xs))),
       runMax l h (eligCands l xs)) := by
  induction xs generalizing b h with
  | nil => simp [findBestLoop, eligCands, runMax]
  | cons c xs ih =>
    obtain ⟨ht, ha⟩ := not_or.mp (hne c (List.mem_cons_self c xs))
    have hbt : (c.title == "") = false := beq_eq_false_iff_ne.mpr ht
    have hba : (c.artist == "") = false := beq_eq_false_iff_ne.mpr ha
    have hne' : ∀ x ∈ xs, ¬(x.title = "" ∨ x.artist = "") :=
      fun x hx => hne x (List.mem_cons.mpr (Or.inr hx))
    by_cases hg : artistGate l c
    · have helig : eligCands l (c :: xs) = c :: eligCands l xs := by
        simp [eligCands, hg]
      by_cases hlt : (candScore l c : Int) > h
      · have lhs : findBestLoop l (c :: xs) b h = findBestLoop l xs (some c) (candScore l c) := by
          simp [findBestLoop, hbt, hba, hg, hlt]
        rw [lhs, ih hne' (some c) (candScore l c), helig, runMax_cons,
          max_eq_right (le_of_lt hlt)]
        have hscM : (candScore l c : Int) ≤ runMax l (candScore l c) (eligCands l xs) :=
          le_runMax ..
        have hMh : runMax l (candScore l c : Int) (eligCands l xs) ≠ h := by
          intro he
          exact absurd (he ▸ hscM) (not_le.mpr hlt)
        rw [if_neg hMh]
        by_cases hceq : (candScore l c : Int) = runMax l (candScore l c) (eligCands l xs)
        · rw [if_pos hceq.symm, List.find?_cons_of_pos _ (by simpa using hceq)]
        · rw [if_neg (fun he => hceq he.symm),
            List.find?_cons_of_neg _ (by simpa using hceq)]
      · have lhs : findBestLoop l (c :: xs) b h = findBestLoop l xs b h := by
          simp [findBestLoop, hbt, hba, hg, hlt]
        rw [lhs, ih hne' b h, helig, runMax_cons, max_eq_left (not_lt.mp hlt)]
        by_cases hMh : runMax l h (eligCands l xs) = h
        · rw [if_pos hMh, if_pos hMh]
        · rw [if_neg hMh, if_neg hMh]
          have hcM : ¬((candScore l c : Int) = runMax l h (eligCands l xs)) := by
            have h1 : (candScore l c : Int) ≤ h := not_lt.mp hlt
            have h2 : h ≤ runMax l h (eligCands l xs) := le_runMax ..
            intro he
            exact hMh (le_antisymm (he ▸ h1) h2)
          rw [List.find?_cons_of_neg _ (by simpa using hcM)]
    · have helig : eligCands l (c :: xs) = eligCands l xs := by
        simp [eligCands, hg]
      have lhs : findBestLoop l (c :: xs) b h = findBestLoop l xs b h := by
        simp [findBestLoop, hbt, hba, hg]
      rw [lhs, ih hne' b h, helig]

/-- C3 (Candidate Matcher scoring): for every idea and candidate list
(whose candidates carry a non-empty title and artist), `findBestSpotifyMatch`
scores candidates exactly as the spec describes — +5 artist containment
(disqualifying when absent), +5 exact artist equality, +10 exact title
equality or else +3 one-way title containment, +2 verbatim raw-title
occurrence — and returns the (first) highest-scoring candidate exactly
when that score is at least 8, otherwise none. -/
theorem matcher_scoring_spec (l : SongRef) (cands : List SpotCand)
    (hfields : ∀ c ∈ cands, c.title ≠ "" ∧ c.artist ≠ "") :
    findBestSpotifyMatch l cands = specBestMatch l cands := by
  have hne : ∀ c ∈ cands, ¬(c.title = "" ∨ c.artist = "") :=
    fun c hc => not_or.mpr ⟨(hfields c hc).1, (hfields c hc).2⟩
  unfold findBestSpotifyMatch specBestMatch topScore
  rw [findBestLoop_eq l cands hne none (-1)]
  by_cases hM1 : runMax l (-1) (eligCands l cands) = -1
  · rw [if_pos hM1]
    have : ¬(8 ≤ runMax l (-1) (eligCands l cands)) := by rw [hM1]; norm_num
    simp [this]
  · rw [if_neg hM1]
    cases hfind : (eligCands l cands).find?
        (fun c => (candScore l c : Int) == runMax l (-1) (eligCands l cands)) with
    | none => simp [hfind]
    | some bm => by_cases h8 : 8 ≤ runMax l (-1) (eligCands l cands) <;> simp [hfind, h8]

/-- Witness for C3, at the spec's worked example: the exact candidate is
returned (score 22 ≥ 18) and the artist-mismatch candidate never is. -/
theorem matcher_scoring_spec_witness :
    findBestSpotifyMatch yIdea yCands = specBestMatch yIdea yCands ∧
    findBestSpotifyMatch yIdea yCands = some yCand1 ∧
    18 ≤ candScore yIdea yCand1 ∧ artistGate yIdea yCand2 = false :=
  ⟨matcher_scoring_spec yIdea yCands (by decide), by decide, by decide, by decide⟩

/-- C10 (deterministic tie-break): whenever the top score reaches the
threshold, `findBestSpotifyMatch` returns the first eligible candidate
attaining it in list order — a later candidate with a merely equal score
never replaces an earlier one. -/
theorem matcher_tiebreak_first (l : SongRef) (cands : List SpotCand)
    (hfields : ∀ c ∈ cands, c.title ≠ "" ∧ c.artist ≠ "")
    (hM : 8 ≤ topScore l cands) :
    findBestSpotifyMatch l cands =
      (eligCands l cands).find? (fun c => (candScore l c : Int) == topScore l cands) := by
  have hne : ∀ c ∈ cands, ¬(c.title = "" ∨ c.artist = "") :=
    fun c hc => not_or.mpr ⟨(hfields c hc).1, (hfields c hc).2⟩
  unfold findBestSpotifyMatch topScore
  rw [findBestLoop_eq l cands hne none (-1)]
  have hM1 : runMax l (-1) (eligCands l cands) ≠ -1 := by
    intro he
    rw [topScore, he] at hM
    norm_num at hM
  rw [if_neg hM1]
  have h8 : 8 ≤ runMax l (-1) (eligCands l cands) := hM
  cases hfind : (eligCands l cands).find?
      (fun c => (candScore l c : Int) == runMax l (-1) (eligCands l cands)) with
  | none => simp [hfind]
  | some bm => simp [hfind, h8]

/-- Witness for C10: two eligible candidates tie at score 10 ≥ 8 and the
first in list order is returned. -/
theorem matcher_tiebreak_first_witness :
    findBestSpotifyMatch tIdea tCands =
      (eligCands tIdea tCands).find?
        (fun c => (candScore tIdea c : Int) == topScore tIdea tCands) ∧
    findBestSpotifyMatch tIdea tCands = some tCand1 ∧
    candScore tIdea tCand1 = candScore tIdea tCand2 :=
  ⟨matcher_tiebreak_first tIdea tCands (by decide) (by decide), by decide, by decide⟩

/-! ## Theorems: Video Resolver -/

/-- C4 counterexample: a search result whose displayed title contains the
undesired keyword "live" is not rejected when the title also contains
"lyric video" — the code's exemption covers every keyword, not only the
"video" ban — and the resolver in fact returns it. -/
theorem video_keyword_filter_cex :
    strIncl (lowerStr liveLyricItem.title) "live" = true ∧
    "live" ∈ undesiredKeywords ∧
    keywordReject (lowerStr liveLyricItem.title) = false ∧
    searchYouTubeVideo "Artist" 0 envLive = some liveLyricItem.videoId := by
  decide

/-- C4 (amended): the keyword filter rejects every title containing an
undesired keyword unless the title also contains "lyric video" (the
exemption applies to the whole keyword set); in particular, when every
search result's title contains "Official Live Performance" and lacks
"lyric video", the resolver rejects them all under every template and
returns none. -/
theorem video_keyword_filter (a : String) (d : Nat) (env : YTEnv)
    (h : ∀ i it, it ∈ env.results i →
      strIncl (lowerStr it.title) "official live performance" = true ∧
      strIncl (lowerStr it.title) "lyric video" = false) :
    searchYouTubeVideo a d env = none := by
  have hitem : ∀ i it, it ∈ env.results i → keywordReject (lowerStr it.title) = true := by
    intro i it hm
    obtain ⟨h1, h2⟩ := h i it hm
    have hlive : strIncl (lowerStr it.title) "live" = true :=
      strIncl_trans h1 (by decide)
    unfold keywordReject
    rw [List.any_eq_true]
    exact ⟨"live", by decide, by rw [hlive, h2]; rfl⟩
  have hfirst : ∀ (t : StratType) (s : Bool) (xs : List YTItem),
      (∀ it ∈ xs, keywordReject (lowerStr it.title) = true) →
      firstHit t s a d env xs = none := by
    intro t s xs
    induction xs with
    | nil => intro _; rfl
    | cons it rest ih =>
      intro hxs
      have hk := hxs it (List.mem_cons_self it rest)
      have hchk : checkItem t s a d env it = false := by
        simp [checkItem, hk]
      simp only [firstHit, hchk, if_neg]
      exact ih (fun x hx => hxs x (List.mem_cons.mpr (Or.inr hx)))
  have hloop : ∀ (k : Nat) (strats : List (StratType × Bool)),
      searchLoop a d env k strats = none := by
    intro k strats
    induction strats generalizing k with
    | nil => rfl
    | cons p rest ih =>
      obtain ⟨t, s⟩ := p
      have hf := hfirst t s (env.results k) (fun it hm => hitem k it hm)
      simp [searchLoop, hf, ih]
  exact hloop 0 searchStrategies

/-- Witness for C4 (amended) at a concrete environment whose every result
is titled "Band - Tune Official Live Performance". -/
theorem video_keyword_filter_witness :
    searchYouTubeVideo "Band" 0 envOLP = none :=
  video_keyword_filter "Band" 0 envOLP (by
    intro i it hm
    have hit : it = olpItem := by simpa [envOLP] using hm
    subst hit
    exact ⟨by decide, by decide⟩)

/-- C5 (duration tolerance): when a target duration is known and the
candidate's duration was fetched, the duration gate rejects exactly when
the absolute difference exceeds the lesser of 30000 ms and 20% of the
target; and an item accepted by the resolver's checks passed the gate. -/
theorem video_duration_tolerance (t : StratType) (strict : Bool) (a : String)
    (d yt : Nat) (env : YTEnv) (it : YTItem)
    (hd : 0 < d) (hf : env.fetchDur it.videoId = some yt) :
    (durationGate d (some yt) = false ↔
      min 30000 ((d : ℚ) / 5) < |(yt : ℚ) - (d : ℚ)|) ∧
    (checkItem t strict a d env it = true → durationGate d (some yt) = true) := by
  constructor
  · have hd0 : ¬(d = 0) := Nat.pos_iff_ne_zero.mp hd
    have h20 : (d : ℚ) * (20 / 100) = (d : ℚ) / 5 := by ring
    simp only [durationGate, if_neg hd0]
    rw [h20]
    split_ifs with hc
    · exact iff_of_true rfl hc
    · exact iff_of_false (by simp) hc
  · intro hchk
    simp only [checkItem] at hchk
    split_ifs at hchk with h1 h2 h3
    rw [hf] at hchk
    exact hchk

/-- Witness for C5: for a 200000 ms target, a 235000 ms candidate is
rejected (35 s difference exceeds min(30000, 40000)) and a 220000 ms
candidate is accepted. -/
theorem video_duration_tolerance_witness :
    durationGate 200000 (some 235000) = false ∧
    durationGate 200000 (some 220000) = true := by
  have h1 := (video_duration_tolerance .general false "a" 200000 235000
    ⟨fun _ => [], fun _ => some 235000⟩ ⟨"v", "x", "y"⟩ (by norm_num) rfl).1
  have h2 := (video_duration_tolerance .general false "a" 200000 220000
    ⟨fun _ => [], fun _ => some 220000⟩ ⟨"v", "x", "y"⟩ (by norm_num) rfl).1
  have e1 : ((200000 : ℕ) : ℚ) / 5 = 40000 := by norm_num
  have emin : min (30000 : ℚ) 40000 = 30000 := min_eq_left (by norm_num)
  refine ⟨h1.mpr ?_, ?_⟩
  · have e2 : |((235000 : ℕ) : ℚ) - ((200000 : ℕ) : ℚ)| = 35000 := by
      rw [show ((235000 : ℕ) : ℚ) - ((200000 : ℕ) : ℚ) = 35000 by norm_num,
        abs_of_nonneg (by norm_num)]
    rw [e1, e2, emin]
    norm_num
  · cases hgate : durationGate 200000 (some 220000) with
    | false =>
      have hlt := h2.mp hgate
      have e2 : |((220000 : ℕ) : ℚ) - ((200000 : ℕ) : ℚ)| = 20000 := by
        rw [show ((220000 : ℕ) : ℚ) - ((200000 : ℕ) : ℚ) = 20000 by norm_num,
          abs_of_nonneg (by norm_num)]
      rw [e1, e2, emin] at hlt
      norm_num at hlt
    | true => rfl

/-! ## Theorems: Persistence Sink and Orchestrator -/

theorem emitOps_flag_true (today : String) (insFail updFail : Nat → Bool)
    (hins : ∀ j, insFail j = false) :
    ∀ (tracks : List CatalogRow) (i : Nat),
    (Revised.emitOps today insFail updFail i tracks).2 = true := by
  intro tracks
  induction tracks with
  | nil => intro i; rfl
  | cons t rest ih =>
    intro i
    simp only [Revised.emitOps, hins i, Bool.false_eq_true, if_false]
    exact ih (i + 1)

theorem emitOps_flag_false (today : String) (insFail updFail : Nat → Bool) :
    ∀ (tracks : List CatalogRow) (i0 : Nat),
    (∃ j, j < tracks.length ∧ insFail (i0 + j) = true) →
    (Revised.emitOps today insFail updFail i0 tracks).2 = false := by
  intro tracks
  induction tracks with
  | nil =>
    intro i0 ⟨j, hj, _⟩
    exact absurd hj (by simp)
  | cons t rest ih =>
    intro i0 ⟨j, hj, hfail⟩
    by_cases h0 : insFail i0 = true
    · simp [Revised.emitOps, h0]
    · have hne : insFail i0 = false := eq_false_of_ne_true h0
      cases j with
      | zero => rw [Nat.add_zero] at hfail; exact absurd hfail h0
      | succ j' =>
        have htail : (Revised.emitOps today insFail updFail (i0 + 1) rest).2 = false :=
          ih (i0 + 1) ⟨j', by simpa using Nat.lt_of_succ_lt_succ hj,
            by rw [show i0 + 1 + j' = i0 + (j' + 1) by omega]; exact hfail⟩
        simp [Revised.emitOps, hne, htail]

theorem markUsed_step (today : String) (rid : Nat) (rids : List Nat) (c : CatalogRow) :
    Revised.markUsed today rids
        (if c.rid == rid then { c with lastUsed := some today } else c) =
      Revised.markUsed today (rid :: rids) c := by
  by_cases h : c.rid = rid
  · simp only [Revised.markUsed, h, beq_self_eq_true, if_true, List.mem_cons]
    by_cases hm : rid ∈ rids
    · simp [hm]
    · simp [hm]
  · simp only [Revised.markUsed, beq_eq_false_iff_ne.mpr h, if_false, List.mem_cons]
    simp [h]

/-- A committed run of the revised insert loop appends the challenge rows
in order and marks every selected catalog id as used today. -/
theorem applyTx_emitOps (today : String) (insFail updFail : Nat → Bool)
    (hins : ∀ j, insFail j = false) (hupd : ∀ j, updFail j = false) :
    ∀ (tracks : List CatalogRow) (i : Nat) (st : DbState),
    applyTx st (Revised.emitOps today insFail updFail i tracks) =
      { challenges := st.challenges ++ Revised.mkRows today i tracks,
        catalog := st.catalog.map (Revised.markUsed today (tracks.map (fun t => t.rid))) } := by
  intro tracks
  induction tracks with
  | nil =>
    intro i st
    have hmark : ∀ c, Revised.markUsed today [] c = c := by
      intro c; simp [Revised.markUsed]
    simp only [Revised.emitOps, applyTx, if_true, Revised.mkRows, List.append_nil,
      List.map_nil, List.foldl_nil]
    rw [List.map_congr_left (fun c _ => hmark c), List.map_id']
  | cons t rest ih =>
    intro i st
    have hflag := emitOps_flag_true today insFail updFail hins rest (i + 1)
    simp only [Revised.emitOps, hins i, Bool.false_eq_true, if_false, hupd i]
    have happ : applyTx st
        (DbOp.insertChallenge (Revised.mkRow today i t) ::
          DbOp.setLastUsed t.rid today :: (Revised.emitOps today insFail updFail (i + 1) rest).1,
         (Revised.emitOps today insFail updFail (i + 1) rest).2) =
        applyTx (applyOp (applyOp st (DbOp.insertChallenge (Revised.mkRow today i t)))
            (DbOp.setLastUsed t.rid today))
          (Revised.emitOps today insFail updFail (i + 1) rest) := by
      simp [applyTx, hflag]
    rw [happ, ih (i + 1)]
    simp only [applyOp]
    refine congrArg₂ DbState.mk ?_ ?_
    · simp [Revised.mkRows]
    · rw [List.map_map]
      refine List.map_congr_left (fun c _ => ?_)
      simpa using markUsed_step today t.rid (rest.map (fun t => t.rid)) c

/-- C1 (amended, for the revised curator — the revision whose insert
matches the current daily_challenges schema): if any INSERT of the run
fails, the whole transaction is rolled back, the promise rejects, and the
database is left unchanged — zero rows for that challenge date. -/
theorem sink_atomicity (st : DbState) (today cutoff : String) (perm : List CatalogRow)
    (limit : Nat) (insFail updFail : Nat → Bool)
    (hrows : st.challenges.filter (fun r => r.date == today) = [])
    (hfail : ∃ j, j < (Revised.selectTracks cutoff perm limit).length ∧ insFail j = true) :
    Revised.curateDailySongs st today cutoff perm limit insFail updFail =
      (st, Except.error ()) ∧
    ((Revised.curateDailySongs st today cutoff perm limit insFail updFail).1).challenges.filter
      (fun r => r.date == today) = [] := by
  have hzero : ¬(0 < (st.challenges.filter (fun r => r.date == today)).length) := by
    rw [hrows]; simp
  obtain ⟨j, hj, hf⟩ := hfail
  have hlen : 0 < (Revised.selectTracks cutoff perm limit).length :=
    Nat.lt_of_le_of_lt (Nat.zero_le j) hj
  have hne : (Revised.selectTracks cutoff perm limit).isEmpty = false := by
    cases hsel : Revised.selectTracks cutoff perm limit with
    | nil => rw [hsel] at hlen; simp at hlen
    | cons a l => rfl
  have hflag : (Revised.emitOps today insFail updFail 0
      (Revised.selectTracks cutoff perm limit)).2 = false :=
    emitOps_flag_false today insFail updFail _ 0 ⟨j, hj, by simpa using hf⟩
  have hrun : Revised.curateDailySongs st today cutoff perm limit insFail updFail =
      (st, Except.error ()) := by
    simp [Revised.curateDailySongs, hzero, hne, hflag, applyTx]
  exact ⟨hrun, by rw [hrun]; exact hrows⟩

/-- C1 counterexample (the legacy revision checked in at
jobs/daily-song-curator.js): with three selected tracks and the second
insert failing, the transaction still commits two rows for the challenge
date — a partial commit is observable. -/
theorem sink_atomicity_cex :
    (fun i => decide (i = 1)) 1 = true ∧
    legacyFailRun.2 = Except.ok none ∧
    (legacyFailRun.1.challenges.filter (fun r => r.date == "2026-01-01")).length = 2 ∧
    ¬((legacyFailRun.1.challenges.filter (fun r => r.date == "2026-01-01")).length = 0) :=
  ⟨rfl, rfl, rfl, by decide⟩

/-- Witness for C1 (amended): a concrete run over one eligible catalog
row whose single insert fails rejects and leaves the database unchanged. -/
theorem sink_atomicity_witness :
    Revised.curateDailySongs stEmpty "2026-01-01" "2025-12-02" [goodRow] 10
        (fun i => decide (i = 0)) noFail =
      (stEmpty, Except.error ()) :=
  (sink_atomicity stEmpty "2026-01-01" "2025-12-02" [goodRow] 10
    (fun i => decide (i = 0)) noFail rfl ⟨0, by decide, by decide⟩).1

/-- C2 (amended): when rows for today's challenge date already exist, the
revised curator performs no write to any table and resolves successfully
— with no value: the existing count is only logged, never returned. -/
theorem idempotent_skip (st : DbState) (today cutoff : String) (perm : List CatalogRow)
    (limit : Nat) (insFail updFail : Nat → Bool)
    (h : 0 < (st.challenges.filter (fun r => r.date == today)).length) :
    Revised.curateDailySongs st today cutoff perm limit insFail updFail =
      (st, Except.ok none) := by
  simp [Revised.curateDailySongs, h]

/-- C2 counterexample: with three rows already stored for the date, the
run resolves with no value — not with the existing count 3. -/
theorem idempotent_skip_cex :
    (stExisting.challenges.filter (fun r => r.date == "2026-01-01")).length = 3 ∧
    (Revised.curateDailySongs stExisting "2026-01-01" "2025-12-02" [goodRow] 10
        noFail noFail).2 = Except.ok none ∧
    ¬((Except.ok none : Except Unit (Option Nat)) = Except.ok (some 3)) :=
  ⟨rfl, rfl, fun h => Option.noConfusion (Except.ok.inj h)⟩

/-- Witness for C2 (amended) at the same concrete state. -/
theorem idempotent_skip_witness :
    Revised.curateDailySongs stExisting "2026-01-01" "2025-12-02" [goodRow] 10
        noFail noFail = (stExisting, Except.ok none) :=
  idempotent_skip stExisting "2026-01-01" "2025-12-02" [goodRow] 10 noFail noFail
    (by decide)

theorem mkRows_filter_self (today : String) :
    ∀ (ts : List CatalogRow) (i : Nat),
    (Revised.mkRows today i ts).filter (fun r => r.date == today) =
      Revised.mkRows today i ts := by
  intro ts
  induction ts with
  | nil => intro i; rfl
  | cons t rest ih =>
    intro i
    simp [Revised.mkRows, Revised.mkRow, List.filter_cons, ih (i + 1)]

theorem mkRows_map_ord (today : String) :
    ∀ (ts : List CatalogRow) (i : Nat),
    (Revised.mkRows today i ts).map (fun r => r.ord) = List.range' (i + 1) ts.length := by
  intro ts
  induction ts with
  | nil => intro i; rfl
  | cons t rest ih =>
    intro i
    simp only [Revised.mkRows, Revised.mkRow, List.map_cons, List.length_cons,
      List.range'_succ, ih (i + 1)]

theorem pickTracks_length_le (resolve : SpotTrack → Option String) (desired : Nat) :
    ∀ (cands : List SpotTrack) (acc : List CTrack),
    acc.length ≤ (pickTracks resolve desired cands acc).length := by
  intro cands
  induction cands with
  | nil => intro acc; exact le_refl _
  | cons c rest ih =>
    intro acc
    simp only [pickTracks]
    by_cases hd : desired ≤ acc.length
    · simp [hd]
    · simp only [hd, if_false]
      cases resolve c with
      | some vid =>
        refine le_trans ?_ (ih (acc ++ [mkCTrack c vid]))
        simp
      | none => exact ih acc

theorem pickTracks_nil_iff (resolve : SpotTrack → Option String) (desired : Nat)
    (hdes : 0 < desired) :
    ∀ (cands : List SpotTrack),
    pickTracks resolve desired cands [] = [] ↔ ∀ c ∈ cands, resolve c = none := by
  intro cands
  induction cands with
  | nil => simp [pickTracks]
  | cons c rest ih =>
    have hd0 : desired ≠ 0 := by omega
    cases hr : resolve c with
    | none =>
      have hstep : pickTracks resolve desired (c :: rest) [] =
          pickTracks resolve desired rest [] := by
        simp [pickTracks, hd0, hr]
      rw [hstep, ih]
      simp [hr]
    | some vid =>
      have hstep : pickTracks resolve desired (c :: rest) [] =
          pickTracks resolve desired rest [mkCTrack c vid] := by
        simp [pickTracks, hd0, hr]
      rw [hstep]
      have hge := pickTracks_length_le resolve desired rest [mkCTrack c vid]
      constructor
      · intro he
        rw [he] at hge
        simp at hge
      · intro hall
        have h0 := hall c (List.mem_cons_self c rest)
        rw [hr] at h0
        exact absurd h0 (by simp)

/-- C6 (amended, partial-success policy): in the orchestrated pipeline,
`getTracksForDailyChallenge` raises an error exactly when zero candidates
resolve a video; the revised curator then persists nothing and resolves
successfully (without an error) when no catalog track is eligible, and
when `n ≥ 1` tracks are selected it commits exactly those `n` rows with
sequential song_order 1..n, resolves successfully, and logs the
short-count warning whenever `n` is below the desired count. -/
theorem partial_success_policy (st : DbState) (today cutoff : String)
    (perm : List CatalogRow) (limit : Nat) (insFail updFail : Nat → Bool)
    (cands : List SpotTrack) (resolve : SpotTrack → Option String) (desired : Nat)
    (hrows : st.challenges.filter (fun r => r.date == today) = [])
    (hins : ∀ j, insFail j = false) (hupd : ∀ j, updFail j = false)
    (hdes : 0 < desired) :
    (Revised.selectTracks cutoff perm limit = [] →
      Revised.curateDailySongs st today cutoff perm limit insFail updFail =
        (st, Except.ok none)) ∧
    (Revised.selectTracks cutoff perm limit ≠ [] →
      (Revised.curateDailySongs st today cutoff perm limit insFail updFail).2 =
          Except.ok none ∧
      ((Revised.curateDailySongs st today cutoff perm limit insFail updFail).1).challenges.filter
          (fun r => r.date == today) =
        Revised.mkRows today 0 (Revised.selectTracks cutoff perm limit) ∧
      (Revised.mkRows today 0 (Revised.selectTracks cutoff perm limit)).map
          (fun r => r.ord) =
        List.range' 1 (Revised.selectTracks cutoff perm limit).length ∧
      ((Revised.selectTracks cutoff perm limit).length < limit →
        Revised.warnsShort cutoff perm limit = true)) ∧
    (getTracksForDailyChallenge cands resolve desired = Except.error () ↔
      cands.all (fun c => (resolve c).isNone) = true) := by
  have hzero : ¬(0 < (st.challenges.filter (fun r => r.date == today)).length) := by
    rw [hrows]; simp
  refine ⟨?_, ?_, ?_⟩
  · intro hsel
    simp [Revised.curateDailySongs, hzero, hsel]
  · intro hsel
    have hne : (Revised.selectTracks cutoff perm limit).isEmpty = false := by
      cases hsel2 : Revised.selectTracks cutoff perm limit with
      | nil => exact absurd hsel2 hsel
      | cons a l => rfl
    have hflag := emitOps_flag_true today insFail updFail hins
      (Revised.selectTracks cutoff perm limit) 0
    have happ := applyTx_emitOps today insFail updFail hins hupd
      (Revised.selectTracks cutoff perm limit) 0 st
    have hrun : Revised.curateDailySongs st today cutoff perm limit insFail updFail =
        ({ challenges := st.challenges ++
             Revised.mkRows today 0 (Revised.selectTracks cutoff perm limit),
           catalog := st.catalog.map (Revised.markUsed today
             ((Revised.selectTracks cutoff perm limit).map (fun t => t.rid))) },
         Except.ok none) := by
      simp only [Revised.curateDailySongs, hzero, if_false, hne, Bool.false_eq_true,
        hflag, if_true, happ]
    refine ⟨by rw [hrun], ?_, mkRows_map_ord today _ 0, ?_⟩
    · rw [hrun]
      simp only [List.filter_append, hrows, List.nil_append,
        mkRows_filter_self today _ 0]
    · intro hlt
      simp [Revised.warnsShort, hlt]
  · unfold getTracksForDailyChallenge
    by_cases hp : (pickTracks resolve desired cands []).length = 0
    · have hnil : pickTracks resolve desired cands [] = [] := List.length_eq_zero.mp hp
      have hall := (pickTracks_nil_iff resolve desired hdes cands).mp hnil
      simp only [hp, if_true]
      constructor
      · intro _
        rw [List.all_eq_true]
        intro c hc
        rw [hall c hc]
        rfl
      · intro _
        trivial
    · simp only [hp, if_false]
      constructor
      · intro he
        exact absurd he (by simp)
      · intro hall
        have hnil : pickTracks resolve desired cands [] = [] := by
          rw [pickTracks_nil_iff resolve desired hdes cands]
          intro c hc
          have := List.all_eq_true.mp hall c hc
          simpa using this
        rw [hnil] at hp
        simp at hp

/-- C6 counterexample: a run that resolves zero tracks end-to-end (no
eligible catalog row) persists nothing but resolves successfully — it
does not fail with an error as the claim requires. -/
theorem partial_success_cex :
    Revised.selectTracks "2025-12-02" [badRow] 10 = [] ∧
    zeroEligRun = (stEmpty, Except.ok none) ∧
    ¬((Except.ok none : Except Unit (Option Nat)) = Except.error ()) :=
  ⟨rfl, rfl, fun h => Except.noConfusion h⟩

/-- Witness for C6 (amended): two of ten desired tracks resolve; the run
succeeds, persists rows ordered 1 and 2, and warns; an environment where
nothing resolves makes the track fetcher raise. -/
theorem partial_success_witness :
    (Revised.curateDailySongs stEmpty "2026-01-01" "2025-12-02" [goodRow, goodRow2] 10
        noFail noFail).2 = Except.ok none ∧
    ((Revised.curateDailySongs stEmpty "2026-01-01" "2025-12-02" [goodRow, goodRow2] 10
        noFail noFail).1).challenges.filter (fun r => r.date == "2026-01-01") =
      Revised.mkRows "2026-01-01" 0
        (Revised.selectTracks "2025-12-02" [goodRow, goodRow2] 10) ∧
    (Revised.mkRows "2026-01-01" 0
        (Revised.selectTracks "2025-12-02" [goodRow, goodRow2] 10)).map
      (fun r => r.ord) = [1, 2] ∧
    Revised.warnsShort "2025-12-02" [goodRow, goodRow2] 10 = true ∧
    getTracksForDailyChallenge [] (fun _ => none) 10 = Except.error () := by
  have h := partial_success_policy stEmpty "2026-01-01" "2025-12-02" [goodRow, goodRow2]
    10 noFail noFail [] (fun _ => none) 10 rfl (fun _ => rfl) (fun _ => rfl) (by decide)
  obtain ⟨h2a, h2b, h2c, h2d⟩ := h.2.1 (by decide)
  refine ⟨h2a, h2b, ?_, h2d (by decide), h.2.2.mpr (by decide)⟩
  rw [h2c]
  decide

/-- C8 (catalog-reuse strategy with cool-down): every track selected by
the revised curator's first strategy has a real (non-marker) Spotify
track id and YouTube video id, non-null title, artist, album art and
duration, is active (or has a NULL flag), and was last used for a
challenge either never or strictly before the 30-day cutoff; and after a
successful run every catalog row bearing a selected id has
last_used_for_challenge set to the challenge date. -/
theorem catalog_reuse_cooldown (st : DbState) (today cutoff : String)
    (perm : List CatalogRow) (limit : Nat) (insFail updFail : Nat → Bool)
    (r : CatalogRow) (hr : r ∈ Revised.selectTracks cutoff perm limit)
    (hrows : st.challenges.filter (fun x => x.date == today) = [])
    (hins : ∀ j, insFail j = false) (hupd : ∀ j, updFail j = false)
    (c : CatalogRow)
    (hc : c ∈ ((Revised.curateDailySongs st today cutoff perm limit insFail updFail).1).catalog)
    (hcr : c.rid = r.rid) :
    r.spotifyId.isSome = true ∧
    likeMarker "SPOTIFY" (r.spotifyId.getD "") = false ∧
    likeMarker "ERROR" (r.spotifyId.getD "") = false ∧
    r.ytId.isSome = true ∧
    likeMarker "YOUTUBE" (r.ytId.getD "") = false ∧
    likeMarker "ERROR" (r.ytId.getD "") = false ∧
    r.title.isSome = true ∧ r.artist.isSome = true ∧
    r.albumArt.isSome = true ∧ r.durationMs.isSome = true ∧
    (r.isActive = some true ∨ r.isActive = none) ∧
    (r.lastUsed = none ∨ dateLt (r.lastUsed.getD "") cutoff = true) ∧
    c.lastUsed = some today := by
  have helig : eligibleRow cutoff r = true :=
    List.of_mem_filter (List.mem_of_mem_take hr)
  simp only [eligibleRow, Bool.and_eq_true] at helig
  obtain ⟨⟨⟨⟨⟨⟨⟨h1, h2⟩, h3⟩, h4⟩, h5⟩, h6⟩, h7⟩, h8⟩ := helig
  have hzero : ¬(0 < (st.challenges.filter (fun x => x.date == today)).length) := by
    rw [hrows]; simp
  have hne : (Revised.selectTracks cutoff perm limit).isEmpty = false := by
    cases hsel2 : Revised.selectTracks cutoff perm limit with
    | nil => rw [hsel2] at hr; exact absurd hr (by simp)
    | cons a l => rfl
  have hflag := emitOps_flag_true today insFail updFail hins
    (Revised.selectTracks cutoff perm limit) 0
  have happ := applyTx_emitOps today insFail updFail hins hupd
    (Revised.selectTracks cutoff perm limit) 0 st
  have hcat : ((Revised.curateDailySongs st today cutoff perm limit insFail updFail).1).catalog =
      st.catalog.map (Revised.markUsed today
        ((Revised.selectTracks cutoff perm limit).map (fun t => t.rid))) := by
    simp only [Revised.curateDailySongs, hzero, if_false, hne, Bool.false_eq_true,
      hflag, if_true, happ]
  rw [hcat] at hc
  obtain ⟨c0, hc0, hco⟩ := List.mem_map.mp hc
  have hmem : c.rid ∈ (Revised.selectTracks cutoff perm limit).map (fun t => t.rid) :=
    hcr ▸ List.mem_map.mpr ⟨r, hr, rfl⟩
  have hcused : c.lastUsed = some today := by
    by_cases hm : c0.rid ∈ (Revised.selectTracks cutoff perm limit).map (fun t => t.rid)
    · rw [← hco]
      simp [Revised.markUsed, hm]
    · exfalso
      have hceq : c = c0 := by rw [← hco]; simp [Revised.markUsed, hm]
      rw [hceq] at hmem
      exact hm hmem
  refine ⟨?_, ?_, ?_, ?_, ?_, ?_, h3, h4, h5, h6, ?_, ?_, hcused⟩
  · cases hs : r.spotifyId with
    | none => rw [hs] at h1; exact absurd h1 (by simp)
    | some s => rfl
  · cases hs : r.spotifyId with
    | none => rw [hs] at h1; exact absurd h1 (by simp)
    | some s =>
      rw [hs] at h1
      simp only [Bool.and_eq_true, Bool.not_eq_true'] at h1
      simpa [hs] using h1.1
  · cases hs : r.spotifyId with
    | none => rw [hs] at h1; exact absurd h1 (by simp)
    | some s =>
      rw [hs] at h1
      simp only [Bool.and_eq_true, Bool.not_eq_true'] at h1
      simpa [hs] using h1.2
  · cases hs : r.ytId with
    | none => rw [hs] at h2; exact absurd h2 (by simp)
    | some v => rfl
  · cases hs : r.ytId with
    | none => rw [hs] at h2; exact absurd h2 (by simp)
    | some v =>
      rw [hs] at h2
      simp only [Bool.and_eq_true, Bool.not_eq_true'] at h2
      simpa [hs] using h2.1
  · cases hs : r.ytId with
    | none => rw [hs] at h2; exact absurd h2 (by simp)
    | some v =>
      rw [hs] at h2
      simp only [Bool.and_eq_true, Bool.not_eq_true'] at h2
      simpa [hs] using h2.2
  · simpa using h7
  · cases hu : r.lastUsed with
    | none => exact Or.inl rfl
    | some u =>
      rw [hu] at h8
      exact Or.inr (by simpa [hu] using h8)

/-- Witness for C8: the concrete eligible row `goodRow` is selected and
ends up marked as used on the challenge date. -/
theorem catalog_reuse_cooldown_witness :
    goodRow.spotifyId.isSome = true ∧
    likeMarker "SPOTIFY" (goodRow.spotifyId.getD "") = false ∧
    likeMarker "ERROR" (goodRow.spotifyId.getD "") = false ∧
    goodRow.ytId.isSome = true ∧
    likeMarker "YOUTUBE" (goodRow.ytId.getD "") = false ∧
    likeMarker "ERROR" (goodRow.ytId.getD "") = false ∧
    goodRow.title.isSome = true ∧ goodRow.artist.isSome = true ∧
    goodRow.albumArt.isSome = true ∧ goodRow.durationMs.isSome = true ∧
    (goodRow.isActive = some true ∨ goodRow.isActive = none) ∧
    (goodRow.lastUsed = none ∨ dateLt (goodRow.lastUsed.getD "") "2025-12-02" = true) ∧
    goodRowUsed.lastUsed = some "2026-01-01" :=
  catalog_reuse_cooldown stGood "2026-01-01" "2025-12-02" [goodRow] 10 noFail noFail
    goodRow (by decide) rfl (fun _ => rfl) (fun _ => rfl) goodRowUsed (by decide) rfl

/-! ## Theorems: dedup invariant -/

theorem pairwise_append_one {α : Type} (P : α → α → Prop) (l : List α) (x : α)
    (hl : l.Pairwise P) (hx : ∀ a ∈ l, P a x) : (l ++ [x]).Pairwise P := by
  rw [List.pairwise_append]
  refine ⟨hl, List.pairwise_singleton P x, ?_⟩
  intro a ha b hb
  rw [List.mem_singleton] at hb
  subst hb
  exact hx a ha

/-- A fold whose step either keeps the accumulator or appends one element
with an unseen id preserves id-distinctness. -/
theorem foldl_pairwise {β : Type} (f : List SpotTrack → β → List SpotTrack)
    (hf : ∀ acc b, f acc b = acc ∨
      ∃ x, f acc b = acc ++ [x] ∧ ∀ a ∈ acc, a.id ≠ x.id) :
    ∀ (l : List β) (acc : List SpotTrack),
    acc.Pairwise (fun a b => a.id ≠ b.id) →
    (l.foldl f acc).Pairwise (fun a b => a.id ≠ b.id) := by
  intro l
  induction l with
  | nil => intro acc h; exact h
  | cons b rest ih =>
    intro acc h
    rw [List.foldl_cons]
    rcases hf acc b with hsame | ⟨x, hx, hnew⟩
    · rw [hsame]; exact ih acc h
    · rw [hx]; exact ih _ (pairwise_append_one _ acc x h hnew)

theorem mbStage_pairwise (search : TrackIdea → Option SpotTrack)
    (detail : String → List SpotTrack) (limit : Nat) (ideas : List TrackIdea)
    (hdet : ∀ i t rest, detail i = t :: rest → t.id = i) :
    ∀ acc, acc.Pairwise (fun a b => a.id ≠ b.id) →
    (mbStage search detail limit ideas acc).Pairwise (fun a b => a.id ≠ b.id) := by
  intro acc h
  unfold mbStage
  refine foldl_pairwise _ ?_ ideas acc h
  intro acc' idea
  by_cases hlim : limit ≤ acc'.length
  · left; simp [hlim]
  · cases hsearch : search idea with
    | none => left; simp [hlim, hsearch]
    | some f =>
      by_cases hany : (acc'.any fun fc => fc.id == f.id) = true
      · left; simp [hlim, hsearch, hany]
      · cases hdetail : detail f.id with
        | nil => left; simp [hlim, hsearch, hany, hdetail]
        | cons d ds =>
          by_cases hvalid : (d.durationMs != 0 && d.albumArt != "") = true
          · right
            refine ⟨d, by simp [hlim, hsearch, hany, hdetail, hvalid], ?_⟩
            have hid : d.id = f.id := hdet f.id d ds hdetail
            have hany' : ∀ a ∈ acc', ¬(a.id = f.id) := by
              intro a ha he
              exact hany (List.any_eq_true.mpr ⟨a, ha, by simp [he]⟩)
            intro a ha
            rw [hid]
            exact hany' a ha
          · left; simp [hlim, hsearch, hany, hdetail, hvalid]

theorem mergeStage_pairwise (incoming : List SpotTrack) :
    ∀ acc, acc.Pairwise (fun a b => a.id ≠ b.id) →
    (mergeStage incoming acc).Pairwise (fun a b => a.id ≠ b.id) := by
  intro acc h
  unfold mergeStage
  refine foldl_pairwise _ ?_ incoming acc h
  intro acc' t
  by_cases hcond : (!(acc'.any fun fc => fc.id == t.id) && t.durationMs != 0 &&
      t.albumArt != "") = true
  · right
    refine ⟨t, by simp only [hcond, if_true], ?_⟩
    have hany : (acc'.any fun fc => fc.id == t.id) = false := by
      simp only [Bool.and_eq_true, Bool.not_eq_true'] at hcond
      exact hcond.1.1
    intro a ha he
    rw [List.any_eq_false] at hany
    exact absurd (by simp [he]) (hany a ha)
  · left; simp [hcond]

theorem accumulate_pairwise (search : TrackIdea → Option SpotTrack)
    (detail : String → List SpotTrack) (limit : Nat) (ideas : List TrackIdea)
    (topC newC : List SpotTrack)
    (hdet : ∀ i t rest, detail i = t :: rest → t.id = i) :
    (accumulateCandidates search detail limit ideas topC newC).Pairwise
      (fun a b => a.id ≠ b.id) := by
  have h1 := mbStage_pairwise search detail limit ideas hdet [] List.Pairwise.nil
  simp only [accumulateCandidates]
  by_cases ha : (mbStage search detail limit ideas []).length < limit
  · simp only [ha, if_true]
    have h2 := mergeStage_pairwise topC _ h1
    by_cases hb : (mergeStage topC (mbStage search detail limit ideas [])).length < limit
    · simp only [hb, if_true]
      exact mergeStage_pairwise newC _ h2
    · simp only [hb, if_false]
      exact h2
  · simp only [ha, if_false]
    exact h1

theorem pickTracks_pairwise (resolve : SpotTrack → Option String) (desired : Nat) :
    ∀ (cands : List SpotTrack) (acc : List CTrack),
    cands.Pairwise (fun a b => a.id ≠ b.id) →
    acc.Pairwise (fun a b => a.trackId ≠ b.trackId) →
    (∀ a ∈ acc, ∀ c ∈ cands, a.trackId ≠ c.id) →
    (pickTracks resolve desired cands acc).Pairwise
      (fun a b => a.trackId ≠ b.trackId) := by
  intro cands
  induction cands with
  | nil => intro acc _ hacc _; exact hacc
  | cons c rest ih =>
    intro acc hcands hacc hcross
    simp only [pickTracks]
    by_cases hd : desired ≤ acc.length
    · simp only [hd, if_true]; exact hacc
    · simp only [hd, if_false]
      obtain ⟨hhead, htail⟩ := List.pairwise_cons.mp hcands
      cases hr : resolve c with
      | none =>
        exact ih acc htail hacc
          (fun a ha c' hc' => hcross a ha c' (List.mem_cons.mpr (Or.inr hc')))
      | some vid =>
        refine ih (acc ++ [mkCTrack c vid]) htail ?_ ?_
        · exact pairwise_append_one _ acc (mkCTrack c vid) hacc
            (fun a ha => hcross a ha c (List.mem_cons_self c rest))
        · intro a ha c' hc'
          rcases List.mem_append.mp ha with hin | hone
          · exact hcross a hin c' (List.mem_cons.mpr (Or.inr hc'))
          · rw [List.mem_singleton] at hone
            subst hone
            exact hhead c' hc'

theorem mkRows_map_trackId (today : String) :
    ∀ (ts : List CatalogRow) (i : Nat),
    (Revised.mkRows today i ts).map (fun r => r.trackId) =
      ts.map (fun t => t.spotifyId.getD "") := by
  intro ts
  induction ts with
  | nil => intro i; rfl
  | cons t rest ih =>
    intro i
    simp only [Revised.mkRows, Revised.mkRow, List.map_cons, ih (i + 1)]

theorem eligible_spotId {cutoff : String} {r : CatalogRow}
    (h : eligibleRow cutoff r = true) : ∃ s, r.spotifyId = some s := by
  simp only [eligibleRow, Bool.and_eq_true] at h
  obtain ⟨⟨⟨⟨⟨⟨⟨h1, _⟩, _⟩, _⟩, _⟩, _⟩, _⟩, _⟩ := h
  cases hs : r.spotifyId with
  | none => rw [hs] at h1; exact absurd h1 (by simp)
  | some s => exact ⟨s, rfl⟩

/-- C7 (dedup invariant): in every curation run no two accumulated
candidates share a source track id, hence neither do the tracks of the
final output; and no two daily_challenges rows committed for one
challenge date share a song_order or a track_id_from_source (given the
curated_songs UNIQUE constraint on spotify_track_id, expressed as the
pairwise hypothesis on the catalog). -/
theorem dedup_invariant (search : TrackIdea → Option SpotTrack)
    (detail : String → List SpotTrack) (limit : Nat) (ideas : List TrackIdea)
    (topC newC : List SpotTrack) (resolve : SpotTrack → Option String) (desired : Nat)
    (hdet : ∀ i t rest, detail i = t :: rest → t.id = i)
    (st : DbState) (today cutoff : String) (perm : List CatalogRow) (limitN : Nat)
    (insFail updFail : Nat → Bool)
    (hperm : perm.Pairwise (fun a b => ∀ s, a.spotifyId = some s → b.spotifyId ≠ some s))
    (hrows : st.challenges.filter (fun r => r.date == today) = [])
    (hins : ∀ j, insFail j = false) (hupd : ∀ j, updFail j = false) :
    (accumulateCandidates search detail limit ideas topC newC).Pairwise
      (fun a b => a.id ≠ b.id) ∧
    ((pickTracks resolve desired (accumulateCandidates search detail limit ideas topC newC)
        []).take desired).Pairwise (fun a b => a.trackId ≠ b.trackId) ∧
    (((Revised.curateDailySongs st today cutoff perm limitN insFail updFail).1).challenges.filter
        (fun r => r.date == today)).Pairwise (fun a b => a.ord ≠ b.ord) ∧
    (((Revised.curateDailySongs st today cutoff perm limitN insFail updFail).1).challenges.filter
        (fun r => r.date == today)).Pairwise (fun a b => a.trackId ≠ b.trackId) := by
  have hacc := accumulate_pairwise search detail limit ideas topC newC hdet
  have hzero : ¬(0 < (st.challenges.filter (fun r => r.date == today)).length) := by
    rw [hrows]; simp
  have hsel : (Revised.selectTracks cutoff perm limitN).Pairwise
      (fun a b => ∀ s, a.spotifyId = some s → b.spotifyId ≠ some s) :=
    hperm.sublist (List.Sublist.trans (List.take_sublist _ _) (List.filter_sublist _))
  have hselId : (Revised.selectTracks cutoff perm limitN).Pairwise
      (fun a b => a.spotifyId.getD "" ≠ b.spotifyId.getD "") := by
    refine hsel.imp_of_mem ?_
    intro a b ha hb hP
    obtain ⟨sa, hsa⟩ := eligible_spotId (List.of_mem_filter (List.mem_of_mem_take ha))
    obtain ⟨sb, hsb⟩ := eligible_spotId (List.of_mem_filter (List.mem_of_mem_take hb))
    rw [hsa, hsb]
    simp only [Option.getD_some, ne_eq]
    intro he
    exact hP sa hsa (by rw [hsb, he])
  have hrfilter : ((Revised.curateDailySongs st today cutoff perm limitN insFail
      updFail).1).challenges.filter (fun r => r.date == today) =
      Revised.mkRows today 0 (Revised.selectTracks cutoff perm limitN) ∨
      ((Revised.curateDailySongs st today cutoff perm limitN insFail
      updFail).1).challenges.filter (fun r => r.date == today) = [] := by
    by_cases hempty : (Revised.selectTracks cutoff perm limitN).isEmpty = true
    · right
      simp only [Revised.curateDailySongs, hzero, if_false, hempty, if_true]
      exact hrows
    · left
      have hne : (Revised.selectTracks cutoff perm limitN).isEmpty = false :=
        eq_false_of_ne_true hempty
      have hflag := emitOps_flag_true today insFail updFail hins
        (Revised.selectTracks cutoff perm limitN) 0
      have happ := applyTx_emitOps today insFail updFail hins hupd
        (Revised.selectTracks cutoff perm limitN) 0 st
      simp only [Revised.curateDailySongs, hzero, if_false, hne, Bool.false_eq_true,
        hflag, if_true, happ]
      simp only [List.filter_append, hrows, List.nil_append,
        mkRows_filter_self today _ 0]
  refine ⟨hacc, ?_, ?_, ?_⟩
  · exact List.Pairwise.sublist (List.take_sublist _ _)
      (pickTracks_pairwise resolve desired _ [] hacc List.Pairwise.nil
        (by intro a ha; exact absurd ha (by simp)))
  · rcases hrfilter with he | he
    · rw [he]
      have hmap : ((Revised.mkRows today 0 (Revised.selectTracks cutoff perm
          limitN)).map (fun r => r.ord)).Pairwise (fun a b => a ≠ b) := by
        rw [mkRows_map_ord]
        exact List.nodup_range' 1 _
      exact List.pairwise_map.mp hmap
    · rw [he]
      exact List.Pairwise.nil
  · rcases hrfilter with he | he
    · rw [he]
      have hmap : ((Revised.mkRows today 0 (Revised.selectTracks cutoff perm
          limitN)).map (fun r => r.trackId)).Pairwise (fun a b => a ≠ b) := by
        rw [mkRows_map_trackId]
        exact List.pairwise_map.mpr hselId
      exact List.pairwise_map.mp hmap
    · rw [he]
      exact List.Pairwise.nil

/-- Witness for C7 at a concrete run: two fallback candidates with
distinct ids, both resolving, over a catalog of two distinct rows. -/
theorem dedup_invariant_witness :
    (accumulateCandidates (fun _ => none) (fun _ => []) 5 [] [sp1, sp2] []).Pairwise
      (fun a b => a.id ≠ b.id) ∧
    ((pickTracks (fun _ => some "v") 2
        (accumulateCandidates (fun _ => none) (fun _ => []) 5 [] [sp1, sp2] [])
        []).take 2).Pairwise (fun a b => a.trackId ≠ b.trackId) ∧
    (((Revised.curateDailySongs stEmpty "2026-01-01" "2025-12-02" [goodRow, goodRow2] 10
        noFail noFail).1).challenges.filter (fun r => r.date == "2026-01-01")).Pairwise
      (fun a b => a.ord ≠ b.ord) ∧
    (((Revised.curateDailySongs stEmpty "2026-01-01" "2025-12-02" [goodRow, goodRow2] 10
        noFail noFail).1).challenges.filter (fun r => r.date == "2026-01-01")).Pairwise
      (fun a b => a.trackId ≠ b.trackId) :=
  dedup_invariant (fun _ => none) (fun _ => []) 5 [] [sp1, sp2] [] (fun _ => some "v") 2
    (fun _ _ _ h => absurd h (by simp))
    stEmpty "2026-01-01" "2025-12-02" [goodRow, goodRow2] 10 noFail noFail
    (by
      refine List.Pairwise.cons ?_ (List.pairwise_singleton _ _)
      intro b hb s hs he
      rw [List.mem_singleton] at hb
      subst hb
      have h1 : s = "sg123" := (Option.some.inj hs).symm
      have h2 : s = "sg456" := (Option.some.inj he).symm
      rw [h1] at h2
      exact absurd h2 (by decide))
    rfl (fun _ => rfl) (fun _ => rfl)

/-! ## Theorems: Scheduler -/

theorem trigStep_inv (date : String) (k : Nat) (hk : 0 < k) (b : Bool) (st : SchedSt)
    (h : SchedInv date st) : SchedInv date (trigStep date k b st) := by
  have hmem : (date, 1) ∈ challengeRows date k := by
    simp only [challengeRows, List.mem_map]
    exact ⟨0, by simpa using hk, rfl⟩
  obtain ⟨rows, obs1, obs2, pc1, pc2, att1, att2, com1, com2⟩ := st
  obtain ⟨hc1, hc2, hcc, ha1, ha2, hp1, hp2⟩ := h
  cases b with
  | true =>
    rcases pc1 with _ | _ | pc1
    · obtain ⟨haf, hcf⟩ := hp1 rfl
      subst haf
      subst hcf
      exact ⟨by simp [trigStep], hc2, by simp [trigStep], by simp [trigStep], ha2,
        by simp [trigStep], hp2⟩
    · by_cases hobs : (obs1 == some 0) = true
      · cases htx : txInsert date k rows with
        | some rows2 =>
          have hnotin : ¬((date, 1) ∈ rows) := by
            intro hin
            unfold txInsert at htx
            rw [if_pos (List.any_eq_true.mpr ⟨(date, 1), hmem, by simpa using hin⟩)] at htx
            exact Option.noConfusion htx
          have hrows2 : rows2 = rows ++ challengeRows date k := by
            unfold txInsert at htx
            by_cases hanyc : ((challengeRows date k).any (fun r => decide (r ∈ rows))) = true
            · rw [if_pos hanyc] at htx
              exact Option.noConfusion htx
            · rw [if_neg (by simpa using hanyc)] at htx
              exact (Option.some.inj htx).symm
          have hcom2f : com2 = false := by
            cases hcom2 : com2 with
            | false => rfl
            | true => exact absurd (hc2 hcom2) hnotin
          refine ⟨?_, ?_, ?_, ?_, ?_, ?_, ?_⟩
          · intro _
            simp only [trigStep, hobs, htx, if_true]
            rw [hrows2]
            exact List.mem_append.mpr (Or.inr hmem)
          · intro hcom
            simp only [trigStep, hobs, htx, if_true] at hcom ⊢
            rw [hcom2f] at hcom
            exact absurd hcom (by simp)
          · simp only [trigStep, hobs, htx, if_true]
            simp [hcom2f]
          · intro _
            simp only [trigStep, hobs, htx, if_true]
            exact eq_of_beq hobs
          · intro hatt
            simp only [trigStep, hobs, htx, if_true] at hatt ⊢
            exact ha2 hatt
          · simp [trigStep, hobs, htx]
          · intro hpc
            simp only [trigStep, hobs, htx, if_true] at hpc ⊢
            exact hp2 hpc
        | none =>
          refine ⟨?_, ?_, ?_, ?_, ?_, ?_, ?_⟩
          · intro hcom
            simp only [trigStep, hobs, htx, if_true] at hcom ⊢
            exact hc1 hcom
          · intro hcom
            simp only [trigStep, hobs, htx, if_true] at hcom ⊢
            exact hc2 hcom
          · simp only [trigStep, hobs, htx, if_true]
            exact hcc
          · intro _
            simp only [trigStep, hobs, htx, if_true]
            exact eq_of_beq hobs
          · intro hatt
            simp only [trigStep, hobs, htx, if_true] at hatt ⊢
            exact ha2 hatt
          · simp [trigStep, hobs, htx]
          · intro hpc
            simp only [trigStep, hobs, htx, if_true] at hpc ⊢
            exact hp2 hpc
      · refine ⟨?_, ?_, ?_, ?_, ?_, ?_, ?_⟩
        · intro hcom
          simp only [trigStep, hobs, if_false] at hcom ⊢
          exact hc1 hcom
        · intro hcom
          simp only [trigStep, hobs, if_false] at hcom ⊢
          exact hc2 hcom
        · simp only [trigStep, hobs, if_false]
          exact hcc
        · intro hatt
          simp only [trigStep, hobs, if_false] at hatt ⊢
          exact ha1 hatt
        · intro hatt
          simp only [trigStep, hobs, if_false] at hatt ⊢
          exact ha2 hatt
        · simp [trigStep, hobs]
        · intro hpc
          simp only [trigStep, hobs, if_false] at hpc ⊢
          exact hp2 hpc
    · exact ⟨hc1, hc2, hcc, ha1, ha2, hp1, hp2⟩
  | false =>
    rcases pc2 with _ | _ | pc2
    · obtain ⟨haf, hcf⟩ := hp2 rfl
      subst haf
      subst hcf
      exact ⟨hc1, by simp [trigStep], by simp [trigStep], ha1, by simp [trigStep],
        hp1, by simp [trigStep]⟩
    · by_cases hobs : (obs2 == some 0) = true
      · cases htx : txInsert date k rows with
        | some rows2 =>
          have hnotin : ¬((date, 1) ∈ rows) := by
            intro hin
            unfold txInsert at htx
            rw [if_pos (List.any_eq_true.mpr ⟨(date, 1), hmem, by simpa using hin⟩)] at htx
            exact Option.noConfusion htx
          have hrows2 : rows2 = rows ++ challengeRows date k := by
            unfold txInsert at htx
            by_cases hanyc : ((challengeRows date k).any (fun r => decide (r ∈ rows))) = true
            · rw [if_pos hanyc] at htx
              exact Option.noConfusion htx
            · rw [if_neg (by simpa using hanyc)] at htx
              exact (Option.some.inj htx).symm
          have hcom1f : com1 = false := by
            cases hcom1 : com1 with
            | false => rfl
            | true => exact absurd (hc1 hcom1) hnotin
          refine ⟨?_, ?_, ?_, ?_, ?_, ?_, ?_⟩
          · intro hcom
            simp only [trigStep, hobs, htx, if_true] at hcom ⊢
            rw [hcom1f] at hcom
            exact absurd hcom (by simp)
          · intro _
            simp only [trigStep, hobs, htx, if_true]
            rw [hrows2]
            exact List.mem_append.mpr (Or.inr hmem)
          · simp only [trigStep, hobs, htx, if_true]
            simp [hcom1f]
          · intro hatt
            simp only [trigStep, hobs, htx, if_true] at hatt ⊢
            exact ha1 hatt
          · intro _
            simp only [trigStep, hobs, htx, if_true]
            exact eq_of_beq hobs
          · intro hpc
            simp only [trigStep, hobs, htx, if_true] at hpc ⊢
            exact hp1 hpc
          · simp [trigStep, hobs, htx]
        | none =>
          refine ⟨?_, ?_, ?_, ?_, ?_, ?_, ?_⟩
          · intro hcom
            simp only [trigStep, hobs, htx, if_true] at hcom ⊢
            exact hc1 hcom
          · intro hcom
            simp only [trigStep, hobs, htx, if_true] at hcom ⊢
            exact hc2 hcom
          · simp only [trigStep, hobs, htx, if_true]
            exact hcc
          · intro hatt
            simp only [trigStep, hobs, htx, if_true] at hatt ⊢
            exact ha1 hatt
          · intro _
            simp only [trigStep, hobs, htx, if_true]
            exact eq_of_beq hobs
          · intro hpc
            simp only [trigStep, hobs, htx, if_true] at hpc ⊢
            exact hp1 hpc
          · simp [trigStep, hobs, htx]
      · refine ⟨?_, ?_, ?_, ?_, ?_, ?_, ?_⟩
        · intro hcom
          simp only [trigStep, hobs, if_false] at hcom ⊢
          exact hc1 hcom
        · intro hcom
          simp only [trigStep, hobs, if_false] at hcom ⊢
          exact hc2 hcom
        · simp only [trigStep, hobs, if_false]
          exact hcc
        · intro hatt
          simp only [trigStep, hobs, if_false] at hatt ⊢
          exact ha1 hatt
        · intro hatt
          simp only [trigStep, hobs, if_false] at hatt ⊢
          exact ha2 hatt
        · intro hpc
          simp only [trigStep, hobs, if_false] at hpc ⊢
          exact hp1 hpc
        · simp [trigStep, hobs]
    · exact ⟨hc1, hc2, hcc, ha1, ha2, hp1, hp2⟩

theorem runSched_inv (date : String) (k : Nat) (hk : 0 < k) :
    ∀ (sched : List Bool) (s : SchedSt), SchedInv date s →
    SchedInv date (sched.foldl (fun st b => trigStep date k b st) s) := by
  intro sched
  induction sched with
  | nil => intro s h; exact h
  | cons b rest ih =>
    intro s h
    rw [List.foldl_cons]
    exact ih _ (trigStep_inv date k hk b s h)

/-- C9 counterexample: under the interleaving in which both triggers
check the count before either writes, both observe zero rows and both
issue insert statements — the second trigger neither observes "already
running" (no run-state flag exists in `startDailyJob`) nor "already
complete", and it performs writes; only the storage-layer UNIQUE
constraint aborts its transaction. -/
theorem scheduler_exclusivity_cex :
    (runSched "2026-01-01" 10 raceSched).att1 = true ∧
    (runSched "2026-01-01" 10 raceSched).att2 = true ∧
    (runSched "2026-01-01" 10 raceSched).obs2 = some 0 ∧
    (runSched "2026-01-01" 10 raceSched).com1 = true ∧
    (runSched "2026-01-01" 10 raceSched).com2 = false := by
  decide

/-- C9 (amended): for every interleaving of two concurrent triggers of
the same period, at most one trigger's transaction commits (the UNIQUE
constraint on `(challenge_date, song_order)` aborts the later one), and
a trigger issues writes only after observing a zero row count — there is
no run-state flag, and both triggers may attempt writes. -/
theorem scheduler_exclusivity (date : String) (k : Nat) (sched : List Bool)
    (hk : 0 < k) :
    ¬((runSched date k sched).com1 = true ∧ (runSched date k sched).com2 = true) ∧
    ((runSched date k sched).att1 = true → (runSched date k sched).obs1 = some 0) ∧
    ((runSched date k sched).att2 = true → (runSched date k sched).obs2 = some 0) := by
  have hinit : SchedInv date initSched :=
    ⟨by simp [initSched], by simp [initSched], by simp [initSched],
     by simp [initSched], by simp [initSched], fun _ => ⟨rfl, rfl⟩, fun _ => ⟨rfl, rfl⟩⟩
  have hinv : SchedInv date (runSched date k sched) :=
    runSched_inv date k hk sched initSched hinit
  exact ⟨hinv.2.2.1, hinv.2.2.2.1, hinv.2.2.2.2.1⟩

/-- Witness for C9 (amended): in the racing interleaving the second
trigger's transaction does not commit. -/
theorem scheduler_exclusivity_witness :
    (runSched "2026-01-01" 10 raceSched).com2 = false := by
  have h := scheduler_exclusivity "2026-01-01" 10 raceSched (by norm_num)
  cases hcom : (runSched "2026-01-01" 10 raceSched).com2 with
  | false => rfl
  | true => exact absurd ⟨by decide, hcom⟩ h.1

end SonicGuessr
